import Mathlib

/-!
Verification development for the UNIQ inventory dashboard (src/main.py).

The dashboard is embedded shallowly: a table is a list of rows together
with a column list; each row is an association list from column names to
values.  The pipeline stages of the script — fetch, numeric coercion of
the count column, sidebar filtering, per-category aggregation, low-stock
analysis and the derived chart data — are translated into executable
Lean definitions, and the stated properties of the specification are
proved about them.

Modelling conventions:
* pandas group keys and `unique` sequences are represented in first-seen
  order (pandas `groupby` additionally sorts group keys; none of the
  stated properties depend on the presentation order of groups);
* values are either strings or integers; the data contract of the spec
  (section 3) gives every row a value for every present column, so the
  model has no null value and column access uses a string default that
  is never exercised on well-formed tables.
-/

/-- A cell value of the raw API table: a string or a number. -/
inductive Value where
  | str (s : String)
  | num (n : Int)
deriving DecidableEq, Repr

/-- `str(v)` as applied by `astype(str)` in the waist/size filters. -/
def valueStr : Value → String
  | .str s => s
  | .num n => toString n

/-- One row of an inventory table: an association list from column names
to values (one InventoryRecord). -/
structure Row where
  cells : List (String × Value)
deriving DecidableEq, Repr

/-- Look up a column in an association list (first binding wins). -/
def lookupCell (c : String) : List (String × Value) → Option Value
  | [] => none
  | p :: ps => if p.1 = c then some p.2 else lookupCell c ps

/-- Column access on a row. -/
def getCol (r : Row) (c : String) : Option Value :=
  lookupCell c r.cells

/-- Total column access, used where the data contract guarantees the
column is present. -/
def getD (r : Row) (c : String) : Value :=
  (getCol r c).getD (Value.str "")

/-- The numeric measure of a row: the value of `unique_ean_count` after
coercion (`0` on a malformed row; never exercised after `coerceRows`). -/
def countOf (r : Row) : Int :=
  match getCol r "unique_ean_count" with
  | some (Value.num n) => n
  | _ => 0

/-- An inventory table: `df.columns` and the rows (an InventoryTable). -/
structure Table where
  cols : List String
  rows : List Row
deriving DecidableEq, Repr

/-- The three product categories of the dashboard. -/
inductive Category where
  | jeans
  | jackets
  | kimonoGilet
deriving DecidableEq, Repr

/-- First-seen deduplication with an accumulator of already-seen
elements; models the order kept by pandas `unique`. -/
def firstSeenAux [DecidableEq α] (seen : List α) : List α → List α
  | [] => []
  | a :: l => if a ∈ seen then firstSeenAux seen l else a :: firstSeenAux (a :: seen) l

/-- The distinct elements of a list in first-seen order (pandas
`unique`). -/
def firstSeen [DecidableEq α] (l : List α) : List α :=
  firstSeenAux [] l

/-- Index of the first occurrence of `a` in a list (the enumeration
index assigned by the `val_map` dictionary of the source). -/
def idxOfD [DecidableEq α] (a : α) : List α → Nat
  | [] => 0
  | b :: l => if b = a then 0 else idxOfD a l + 1

/-! ## Filter engine (sidebar filters, src/main.py lines 91–152) -/

/-- The sidebar selections: one chosen value per filter widget.  The
collection/fit/gender/color selectboxes offer raw column values, the
waist/size selectboxes offer stringified values; `"All"` is the
no-constraint sentinel. -/
structure Selections where
  collection : Value
  fit : Value
  gender : Value
  color : Value
  waist : String
  size : String
deriving DecidableEq, Repr

/-- `df = df[df[c] == v]`. -/
def filterEqRows (c : String) (v : Value) (rows : List Row) : List Row :=
  rows.filter (fun r => getD r c = v)

/-- `df = df[df[c].astype(str) == s]` (waist/size filters). -/
def filterStrRows (c : String) (s : String) (rows : List Row) : List Row :=
  rows.filter (fun r => valueStr (getD r c) = s)

/-- The collection filter: applied when the column exists and the
selection is not the `"All"` sentinel. -/
def collectionStep (sel : Selections) (t : Table) : Table :=
  if "collection" ∈ t.cols ∧ sel.collection ≠ Value.str "All" then
    { t with rows := filterEqRows "collection" sel.collection t.rows }
  else t

/-- The fit filter. -/
def fitStep (sel : Selections) (t : Table) : Table :=
  if "fit" ∈ t.cols ∧ sel.fit ≠ Value.str "All" then
    { t with rows := filterEqRows "fit" sel.fit t.rows }
  else t

/-- The gender filter (Jeans and Jackets). -/
def genderStep (sel : Selections) (t : Table) : Table :=
  if "gender" ∈ t.cols ∧ sel.gender ≠ Value.str "All" then
    { t with rows := filterEqRows "gender" sel.gender t.rows }
  else t

/-- The color filter (Jackets). -/
def colorStep (sel : Selections) (t : Table) : Table :=
  if "color" ∈ t.cols ∧ sel.color ≠ Value.str "All" then
    { t with rows := filterEqRows "color" sel.color t.rows }
  else t

/-- The waist filter (Jeans): string-normalized comparison. -/
def waistStep (sel : Selections) (t : Table) : Table :=
  if "un_waist" ∈ t.cols ∧ sel.waist ≠ "All" then
    { t with rows := filterStrRows "un_waist" sel.waist t.rows }
  else t

/-- The size filter (Jackets and Kimono & Gilet): string-normalized
comparison. -/
def sizeStep (sel : Selections) (t : Table) : Table :=
  if "un_size" ∈ t.cols ∧ sel.size ≠ "All" then
    { t with rows := filterStrRows "un_size" sel.size t.rows }
  else t

/-- The whole sidebar filter engine, in source order: collection and fit
for every category, then the category-specific filters. -/
def applyFilters (cat : Category) (sel : Selections) (t : Table) : Table :=
  let t2 := fitStep sel (collectionStep sel t)
  match cat with
  | .jeans => waistStep sel (genderStep sel t2)
  | .jackets => colorStep sel (sizeStep sel (genderStep sel t2))
  | .kimonoGilet => sizeStep sel t2

/-- The all-`"All"` selection: no constraint on any dimension. -/
def allAll : Selections :=
  ⟨Value.str "All", Value.str "All", Value.str "All", Value.str "All", "All", "All"⟩

/-- Specification-side predicate of one equality filter: active exactly
when the dimension is a column of the table and the selection is not the
sentinel. -/
def eqFilterPred (c : String) (v : Value) (cols : List String) (allSent : Value) (r : Row) : Bool :=
  if c ∈ cols ∧ v ≠ allSent then decide (getD r c = v) else true

/-- Specification-side predicate of one string-normalized filter. -/
def strFilterPred (c : String) (s : String) (cols : List String) (r : Row) : Bool :=
  if c ∈ cols ∧ s ≠ "All" then decide (valueStr (getD r c) = s) else true

/-- Specification-side predicate of the whole filter engine: the
conjunction, over the recognized dimensions of the category, of the
active equality constraints. -/
def filterSpecPred (cat : Category) (sel : Selections) (cols : List String) (r : Row) : Bool :=
  let base := eqFilterPred "collection" sel.collection cols (Value.str "All") r &&
    eqFilterPred "fit" sel.fit cols (Value.str "All") r
  match cat with
  | .jeans => (base && eqFilterPred "gender" sel.gender cols (Value.str "All") r) &&
      strFilterPred "un_waist" sel.waist cols r
  | .jackets => ((base && eqFilterPred "gender" sel.gender cols (Value.str "All") r) &&
      strFilterPred "un_size" sel.size cols r) &&
      eqFilterPred "color" sel.color cols (Value.str "All") r
  | .kimonoGilet => base && strFilterPred "un_size" sel.size cols r

/-! ## Aggregation pipeline (groupby / sum, src/main.py lines 198–310) -/

/-- The tuple of values of a row along the grouping columns. -/
def keyOf (ks : List String) (r : Row) : List Value :=
  ks.map (fun c => getD r c)

/-- `df.groupby(ks)["unique_ean_count"].sum().reset_index()`: one output
row per distinct key tuple, carrying the sum of the measure over its
fiber.  Group keys are kept in first-seen order (pandas sorts them; no
stated property depends on the group order). -/
def groupbySum (ks : List String) (rows : List Row) : List (List Value × Int) :=
  (firstSeen (rows.map (keyOf ks))).map
    (fun k => (k, ((rows.filter (fun r => keyOf ks r = k)).map countOf).sum))

/-- `gender_fit_df` (Jeans primary chart, lines 201–202). -/
def gender_fit_df (t : Table) : List (List Value × Int) :=
  groupbySum ["gender", "fit"] t.rows

/-- `collection_df` (collection pie chart, lines 277–278). -/
def collection_df (t : Table) : List (List Value × Int) :=
  groupbySum ["collection"] t.rows

/-- `sort_values(by="unique_ean_count", ascending=False)` on an
aggregate view. -/
def sortByCountDesc (l : List (List Value × Int)) : List (List Value × Int) :=
  l.mergeSort (fun a b => decide (b.2 ≤ a.2))

/-- The aggregate chosen for the primary (first-column) category chart,
tagged by its grouping shape. -/
inductive PrimaryChart where
  | byGenderFit (view : List (List Value × Int))
  | byFit (view : List (List Value × Int))
  | byColor (view : List (List Value × Int))
deriving DecidableEq, Repr

/-- The first-column chart selection of the Overview tab (lines
198–271): Jeans group by (gender, fit) when both columns are present and
by fit otherwise; Jackets group by color when present (sorted by count
descending) and by fit otherwise; Kimono & Gilet group by fit. -/
def primaryChart (cat : Category) (t : Table) : PrimaryChart :=
  match cat with
  | .jeans =>
      if "gender" ∈ t.cols ∧ "fit" ∈ t.cols then
        .byGenderFit (gender_fit_df t)
      else .byFit (groupbySum ["fit"] t.rows)
  | .jackets =>
      if "color" ∈ t.cols then
        .byColor (sortByCountDesc (groupbySum ["color"] t.rows))
      else .byFit (groupbySum ["fit"] t.rows)
  | .kimonoGilet => .byFit (groupbySum ["fit"] t.rows)

/-! ## Low-stock sub-pipeline (lines 496–755) -/

/-- `low_stock_df = filtered_df[filtered_df["unique_ean_count"] <= low_stock_threshold]`. -/
def lowStockRows (threshold : Int) (rows : List Row) : List Row :=
  rows.filter (fun r => countOf r ≤ threshold)

/-- Outcome of the Low Stock tab: an informational empty message, or the
chart section over the low-stock subset. -/
inductive LowStockRender where
  | emptyInfo
  | charts (rows : List Row)
deriving DecidableEq, Repr

/-- The Low Stock tab gate (lines 502–507): `st.info` when the subset is
empty, the chart section otherwise. -/
def lowStockTab (threshold : Int) (t : Table) : LowStockRender :=
  let ls := lowStockRows threshold t.rows
  if ls.isEmpty then .emptyInfo else .charts ls

/-! ## Heatmap section (lines 401–469) -/

/-- `pivot_table(index=ix, columns=colc, values="unique_ean_count",
aggfunc="sum", fill_value=0)`: for every distinct index tuple and every
distinct column value, the summed measure of the matching rows (0 when
no row matches). -/
def pivotTable (ix : List String) (colc : String) (rows : List Row) :
    List (List Value × List (Value × Int)) :=
  (firstSeen (rows.map (keyOf ix))).map (fun rk =>
    (rk, (firstSeen (rows.map (fun r => getD r colc))).map (fun ck =>
      (ck, ((rows.filter (fun r => keyOf ix r = rk ∧ getD r colc = ck)).map countOf).sum))))

/-- The shape of a heatmap: the index dimensions, the cross dimension
and the pivoted data. -/
structure HeatmapSpec where
  indexDims : List String
  colDim : String
  pivot : List (List Value × List (Value × Int))
deriving DecidableEq, Repr

/-- The heatmap branch of the Detailed Analysis tab: the cross-tab is
built only when every dimension of the category-specific pair is a
column of the filtered table; otherwise the branch falls through. -/
def heatmap_df (cat : Category) (t : Table) : Option HeatmapSpec :=
  match cat with
  | .jeans =>
      if "gender" ∈ t.cols ∧ "collection" ∈ t.cols ∧ "fit" ∈ t.cols then
        some ⟨["gender", "collection"], "fit", pivotTable ["gender", "collection"] "fit" t.rows⟩
      else none
  | .jackets =>
      if "color" ∈ t.cols ∧ "fit" ∈ t.cols then
        some ⟨["color"], "fit", pivotTable ["color"] "fit" t.rows⟩
      else none
  | .kimonoGilet =>
      if "un_size" ∈ t.cols ∧ "fit" ∈ t.cols then
        some ⟨["un_size"], "fit", pivotTable ["un_size"] "fit" t.rows⟩
      else none

/-- A user-visible element emitted by a dashboard section. -/
inductive UIEvent where
  | subheader (s : String)
  | chart
  | warningMsg (s : String)
  | infoMsg (s : String)
deriving DecidableEq, Repr

/-- The elements the heatmap section emits: a subheader and a chart when
the category-specific pair is present, and nothing at all otherwise (the
`if`/`elif` chain of lines 401–469 has no trailing `else`; the
`st.warning` of the `except` arms is unreachable in the model, where the
pivot is total). -/
def heatmapEvents (cat : Category) (t : Table) : List UIEvent :=
  match cat with
  | .jeans =>
      if "gender" ∈ t.cols ∧ "collection" ∈ t.cols ∧ "fit" ∈ t.cols then
        [.subheader "Inventory Heatmap: Gender × Collection × Fit", .chart]
      else []
  | .jackets =>
      if "color" ∈ t.cols ∧ "fit" ∈ t.cols then
        [.subheader "Inventory Heatmap: Color × Fit", .chart]
      else []
  | .kimonoGilet =>
      if "un_size" ∈ t.cols ∧ "fit" ∈ t.cols then
        [.subheader "Inventory Heatmap: Size × Fit", .chart]
      else []

/-! ## Treemap / sunburst path (lines 617–666) -/

/-- `treemap_path` (lines 617–629): the hierarchical path, appending
each of gender, collection, fit, color when its column is present, and
then un_size when present, else un_waist when present. -/
def treemap_path (cols : List String) : List String :=
  ((((if "gender" ∈ cols then ["gender"] else []) ++
      (if "collection" ∈ cols then ["collection"] else [])) ++
      (if "fit" ∈ cols then ["fit"] else [])) ++
      (if "color" ∈ cols then ["color"] else [])) ++
    (if "un_size" ∈ cols then ["un_size"]
     else if "un_waist" ∈ cols then ["un_waist"] else [])

/-- `treemap_data` (lines 634–635): grouped sums along the path. -/
def treemap_data (t : Table) : List (List Value × Int) :=
  groupbySum (treemap_path t.cols) t.rows

/-- `sunburst_data` (lines 654–655): grouped sums along the same
`treemap_path` list. -/
def sunburst_data (t : Table) : List (List Value × Int) :=
  groupbySum (treemap_path t.cols) t.rows

/-- Specification-side description of the path: the present dimensions
of the fixed order gender, collection, fit, color, followed by the size
segment, which is un_size when present and un_waist otherwise. -/
def treemapPathSpec (cols : List String) : List String :=
  (["gender", "collection", "fit", "color"].filter (fun c => c ∈ cols)) ++
    (if "un_size" ∈ cols then ["un_size"]
     else if "un_waist" ∈ cols then ["un_waist"] else [])

/-! ## Parallel-coordinates projection (lines 672–736) -/

/-- `parallel_data[col].unique()`: the distinct values of a column in
first-seen row order. -/
def uniqueVals (c : String) (rows : List Row) : List Value :=
  firstSeen (rows.map (fun r => getD r c))

/-- The `val_map` dictionary built by `enumerate(unique_vals)`: each
distinct value is sent to its first-seen index. -/
def valMapIdx (c : String) (rows : List Row) (v : Value) : Nat :=
  idxOfD v (uniqueVals c rows)

/-- One axis of the parallel-coordinates plot: its range and the encoded
per-row values. -/
structure ParDimension where
  rangeLo : Int
  rangeHi : Int
  axisValues : List Int
deriving DecidableEq, Repr

/-- The axis of a categorical column (lines 693–707): range
`[0, len(unique_vals)]` and the rows mapped through `val_map`. -/
def catDimension (c : String) (rows : List Row) : ParDimension :=
  { rangeLo := 0
    rangeHi := Int.ofNat (uniqueVals c rows).length
    axisValues := rows.map (fun r => Int.ofNat (valMapIdx c rows (getD r c))) }

/-- The stock-count axis (lines 710–716): range bounded by the
threshold, carrying the raw counts. -/
def measureDimension (threshold : Int) (rows : List Row) : ParDimension :=
  { rangeLo := 0
    rangeHi := threshold
    axisValues := rows.map countOf }

/-- The columns offered to the parallel-coordinates plot (lines
674–682): the present categorical dimensions in fixed order, then the
measure. -/
def parcoords_cols (cols : List String) : List String :=
  (["gender", "collection", "fit", "color", "un_size", "un_waist"].filter
      (fun c => c ∈ cols)) ++ ["unique_ean_count"]

/-- The dimension list of the plot (lines 690–716). -/
def parDimensions (threshold : Int) (cols : List String) (rows : List Row) :
    List ParDimension :=
  ((parcoords_cols cols).filter (fun c => c ≠ "unique_ean_count")).map
      (fun c => catDimension c rows) ++ [measureDimension threshold rows]

/-! ## Fetcher and session boundary (lines 53–84) -/

/-- The observable outcome of the HTTP exchange as seen by
`fetch_inventory_data`: either some exception inside the `try` block
(network failure, non-success HTTP status via `raise_for_status`,
malformed JSON, missing field), or a parsed JSON body with its `status`
string and `data` rows. -/
inductive FetchInput where
  | failure (msg : String)
  | response (status : String) (data : List Row)
deriving DecidableEq, Repr

/-- `pd.DataFrame(data)` column list: the union of the row keys in
first-seen order. -/
def colsOf (data : List Row) : List String :=
  firstSeen ((data.map (fun r => r.cells.map Prod.fst)).flatten)

/-- `pd.DataFrame()`. -/
def emptyTable : Table :=
  { cols := [], rows := [] }

/-- `pd.DataFrame(data)`. -/
def mkTable (data : List Row) : Table :=
  { cols := colsOf data, rows := data }

/-- `fetch_inventory_data` (lines 53–66): on success status the parsed
table with no error; otherwise an empty table together with the
user-visible `st.error` message. -/
def fetch_inventory_data : FetchInput → Table × Option String
  | .failure msg => (emptyTable, some ("Error fetching data: " ++ msg))
  | .response status data =>
      if status = "success" then (mkTable data, none)
      else (emptyTable, some ("API returned error status: " ++ status))

/-- `pd.to_numeric` on one value: numbers pass through, strings must
parse. -/
def toNumeric : Value → Option Int
  | .num n => some n
  | .str s => s.toInt?

/-- Replace the bindings of a column in a cell list. -/
def setCellList (c : String) (v : Value) : List (String × Value) → List (String × Value)
  | [] => []
  | p :: ps => if p.1 = c then (p.1, v) :: setCellList c v ps else p :: setCellList c v ps

/-- Coerce the `unique_ean_count` cell of one row; `none` models the
exception `pd.to_numeric` raises on an unparsable value (or the missing
column). -/
def coerceRow (r : Row) : Option Row :=
  match getCol r "unique_ean_count" with
  | none => none
  | some v =>
      match toNumeric v with
      | none => none
      | some n => some ⟨setCellList "unique_ean_count" (Value.num n) r.cells⟩

/-- Whether `pd.to_numeric` accepts the count cell of a row. -/
def rowParses (r : Row) : Bool :=
  match getCol r "unique_ean_count" with
  | none => false
  | some v => (toNumeric v).isSome

/-- Line 84 applied row by row: the whole coercion fails as soon as any
row fails. -/
def coerceRows : List Row → Option (List Row)
  | [] => some []
  | r :: rs =>
      match coerceRow r with
      | none => none
      | some r2 =>
          match coerceRows rs with
          | none => none
          | some rs2 => some (r2 :: rs2)

/-- `df["unique_ean_count"] = pd.to_numeric(df["unique_ean_count"])`. -/
def coerceCounts (t : Table) : Option Table :=
  (coerceRows t.rows).map (fun rs => { t with rows := rs })

/-- How a dashboard session ends before any chart logic runs. -/
inductive SessionOutcome where
  | halted
  | raised
  | rendered (t : Table)
deriving DecidableEq, Repr

/-- The session prologue (lines 74–84): fetch; `st.stop()` when the
table is empty; then the strict numeric coercion, whose failure is an
uncaught exception (it lies outside the `try` of the fetcher); on
success the downstream pipeline receives the coerced table. -/
def session (inp : FetchInput) : SessionOutcome :=
  let p := fetch_inventory_data inp
  if p.1.rows.isEmpty then .halted
  else
    match coerceCounts p.1 with
    | none => .raised
    | some t => .rendered t

/-! ## Concrete sample data for witnesses and counterexamples -/

/-- A sample jeans row. -/
def rowMenSkinny : Row :=
  ⟨[("gender", Value.str "Men"), ("collection", Value.str "Core"),
    ("fit", Value.str "Skinny"), ("un_waist", Value.num 32),
    ("unique_ean_count", Value.num 5)]⟩

/-- A second sample jeans row. -/
def rowWomenSkinny : Row :=
  ⟨[("gender", Value.str "Women"), ("collection", Value.str "Core"),
    ("fit", Value.str "Skinny"), ("un_waist", Value.num 28),
    ("unique_ean_count", Value.num 15)]⟩

/-- A sample jeans table. -/
def sampleJeans : Table :=
  { cols := ["gender", "collection", "fit", "un_waist", "unique_ean_count"]
    rows := [rowMenSkinny, rowWomenSkinny] }

/-- A jackets table carrying only fit and the measure (no color). -/
def jacketsFitOnly : Table :=
  { cols := ["fit", "unique_ean_count"]
    rows := [⟨[("fit", Value.str "Slim"), ("unique_ean_count", Value.num 5)]⟩] }

/-- A row whose count cell does not parse as a number. -/
def rowBadCount : Row :=
  ⟨[("fit", Value.str "Slim"), ("unique_ean_count", Value.str "n/a")]⟩

/-! ## Helper lemmas for the filter engine -/

theorem filter_comp {α : Type} (q p : α → Bool) (l : List α) :
    (l.filter q).filter p = l.filter (fun a => q a && p a) := by
  rw [List.filter_filter]
  exact List.filter_congr (fun a _ => Bool.and_comm (p a) (q a))

theorem filter_ite_rows (c : Prop) [Decidable c] (p : Row → Bool) (rows : List Row) :
    (if c then rows.filter p else rows) =
      rows.filter (fun r => if c then p r else true) := by
  by_cases h : c
  · simp only [if_pos h]
  · simp only [if_neg h, List.filter_true]

theorem collectionStep_rows (sel : Selections) (t : Table) :
    (collectionStep sel t).cols = t.cols ∧
      (collectionStep sel t).rows =
        t.rows.filter (eqFilterPred "collection" sel.collection t.cols (Value.str "All")) := by
  unfold collectionStep eqFilterPred filterEqRows
  by_cases h : "collection" ∈ t.cols ∧ sel.collection ≠ Value.str "All"
  · simp only [if_pos h]
    exact ⟨trivial, trivial⟩
  · simp only [if_neg h, List.filter_true]
    exact ⟨trivial, trivial⟩

theorem fitStep_rows (sel : Selections) (t : Table) :
    (fitStep sel t).cols = t.cols ∧
      (fitStep sel t).rows =
        t.rows.filter (eqFilterPred "fit" sel.fit t.cols (Value.str "All")) := by
  unfold fitStep eqFilterPred filterEqRows
  by_cases h : "fit" ∈ t.cols ∧ sel.fit ≠ Value.str "All"
  · simp only [if_pos h]
    exact ⟨trivial, trivial⟩
  · simp only [if_neg h, List.filter_true]
    exact ⟨trivial, trivial⟩

theorem genderStep_rows (sel : Selections) (t : Table) :
    (genderStep sel t).cols = t.cols ∧
      (genderStep sel t).rows =
        t.rows.filter (eqFilterPred "gender" sel.gender t.cols (Value.str "All")) := by
  unfold genderStep eqFilterPred filterEqRows
  by_cases h : "gender" ∈ t.cols ∧ sel.gender ≠ Value.str "All"
  · simp only [if_pos h]
    exact ⟨trivial, trivial⟩
  · simp only [if_neg h, List.filter_true]
    exact ⟨trivial, trivial⟩

theorem colorStep_rows (sel : Selections) (t : Table) :
    (colorStep sel t).cols = t.cols ∧
      (colorStep sel t).rows =
        t.rows.filter (eqFilterPred "color" sel.color t.cols (Value.str "All")) := by
  unfold colorStep eqFilterPred filterEqRows
  by_cases h : "color" ∈ t.cols ∧ sel.color ≠ Value.str "All"
  · simp only [if_pos h]
    exact ⟨trivial, trivial⟩
  · simp only [if_neg h, List.filter_true]
    exact ⟨trivial, trivial⟩

theorem waistStep_rows (sel : Selections) (t : Table) :
    (waistStep sel t).cols = t.cols ∧
      (waistStep sel t).rows =
        t.rows.filter (strFilterPred "un_waist" sel.waist t.cols) := by
  unfold waistStep strFilterPred filterStrRows
  by_cases h : "un_waist" ∈ t.cols ∧ sel.waist ≠ "All"
  · simp only [if_pos h]
    exact ⟨trivial, trivial⟩
  · simp only [if_neg h, List.filter_true]
    exact ⟨trivial, trivial⟩

theorem sizeStep_rows (sel : Selections) (t : Table) :
    (sizeStep sel t).cols = t.cols ∧
      (sizeStep sel t).rows =
        t.rows.filter (strFilterPred "un_size" sel.size t.cols) := by
  unfold sizeStep strFilterPred filterStrRows
  by_cases h : "un_size" ∈ t.cols ∧ sel.size ≠ "All"
  · simp only [if_pos h]
    exact ⟨trivial, trivial⟩
  · simp only [if_neg h, List.filter_true]
    exact ⟨trivial, trivial⟩

theorem applyFilters_rows (cat : Category) (sel : Selections) (t : Table) :
    (applyFilters cat sel t).cols = t.cols ∧
      (applyFilters cat sel t).rows = t.rows.filter (filterSpecPred cat sel t.cols) := by
  have h1 := collectionStep_rows sel t
  have h2 := fitStep_rows sel (collectionStep sel t)
  cases cat with
  | jeans =>
    have h3 := genderStep_rows sel (fitStep sel (collectionStep sel t))
    have h4 := waistStep_rows sel (genderStep sel (fitStep sel (collectionStep sel t)))
    refine ⟨?_, ?_⟩
    · show (waistStep sel _).cols = t.cols
      rw [h4.1, h3.1, h2.1, h1.1]
    · show (waistStep sel _).rows = _
      rw [h4.2, h3.1, h2.1, h1.1, h3.2, h2.1, h1.1, h2.2, h1.1, h1.2,
        filter_comp _ (eqFilterPred "fit" sel.fit t.cols (Value.str "All")),
        filter_comp _ (eqFilterPred "gender" sel.gender t.cols (Value.str "All")),
        filter_comp _ (strFilterPred "un_waist" sel.waist t.cols)]
      rfl
  | jackets =>
    have h3 := genderStep_rows sel (fitStep sel (collectionStep sel t))
    have h4 := sizeStep_rows sel (genderStep sel (fitStep sel (collectionStep sel t)))
    have h5 := colorStep_rows sel
      (sizeStep sel (genderStep sel (fitStep sel (collectionStep sel t))))
    refine ⟨?_, ?_⟩
    · show (colorStep sel _).cols = t.cols
      rw [h5.1, h4.1, h3.1, h2.1, h1.1]
    · show (colorStep sel _).rows = _
      rw [h5.2, h4.1, h3.1, h2.1, h1.1, h4.2, h3.1, h2.1, h1.1, h3.2, h2.1, h1.1,
        h2.2, h1.1, h1.2,
        filter_comp _ (eqFilterPred "fit" sel.fit t.cols (Value.str "All")),
        filter_comp _ (eqFilterPred "gender" sel.gender t.cols (Value.str "All")),
        filter_comp _ (strFilterPred "un_size" sel.size t.cols),
        filter_comp _ (eqFilterPred "color" sel.color t.cols (Value.str "All"))]
      rfl
  | kimonoGilet =>
    have h3 := sizeStep_rows sel (fitStep sel (collectionStep sel t))
    refine ⟨?_, ?_⟩
    · show (sizeStep sel _).cols = t.cols
      rw [h3.1, h2.1, h1.1]
    · show (sizeStep sel _).rows = _
      rw [h3.2, h2.1, h1.1, h2.2, h1.1, h1.2,
        filter_comp _ (eqFilterPred "fit" sel.fit t.cols (Value.str "All")),
        filter_comp _ (strFilterPred "un_size" sel.size t.cols)]
      rfl

/-- C3: with every selection at the `"All"` sentinel, the filter engine
is the identity on tables. -/
theorem allAll_filters_identity (cat : Category) (t : Table) :
    applyFilters cat allAll t = t := by
  have hc : collectionStep allAll t = t := by
    unfold collectionStep
    simp [allAll]
  have hf : fitStep allAll t = t := by
    unfold fitStep
    simp [allAll]
  have hg : genderStep allAll t = t := by
    unfold genderStep
    simp [allAll]
  have hco : colorStep allAll t = t := by
    unfold colorStep
    simp [allAll]
  have hw : waistStep allAll t = t := by
    unfold waistStep
    simp [allAll]
  have hs : sizeStep allAll t = t := by
    unfold sizeStep
    simp [allAll]
  cases cat with
  | jeans => show waistStep allAll (genderStep allAll (fitStep allAll (collectionStep allAll t))) = t
             rw [hc, hf, hg, hw]
  | jackets => show colorStep allAll (sizeStep allAll (genderStep allAll (fitStep allAll (collectionStep allAll t)))) = t
               rw [hc, hf, hg, hs, hco]
  | kimonoGilet => show sizeStep allAll (fitStep allAll (collectionStep allAll t)) = t
                   rw [hc, hf, hs]

/-! ## Helper lemmas: first-seen deduplication and fiberwise sums -/

theorem firstSeenAux_cons_mem {α : Type} [DecidableEq α] (seen : List α) (b : α)
    (l : List α) (hb : b ∈ seen) :
    firstSeenAux seen (b :: l) = firstSeenAux seen l := by
  simp only [firstSeenAux]
  rw [if_pos hb]

theorem firstSeenAux_cons_not_mem {α : Type} [DecidableEq α] (seen : List α) (b : α)
    (l : List α) (hb : b ∉ seen) :
    firstSeenAux seen (b :: l) = b :: firstSeenAux (b :: seen) l := by
  simp only [firstSeenAux]
  rw [if_neg hb]

theorem firstSeenAux_spec {α : Type} [DecidableEq α] (l : List α) :
    ∀ seen : List α, (firstSeenAux seen l).Nodup ∧ ∀ a ∈ firstSeenAux seen l, a ∉ seen := by
  induction l with
  | nil => intro seen; exact ⟨List.nodup_nil, by intro a ha; cases ha⟩
  | cons b l ih =>
    intro seen
    by_cases hb : b ∈ seen
    · rw [firstSeenAux_cons_mem seen b l hb]
      exact ih seen
    · have h2 := ih (b :: seen)
      rw [firstSeenAux_cons_not_mem seen b l hb]
      refine ⟨?_, ?_⟩
      · rw [List.nodup_cons]
        refine ⟨fun hmem => ?_, h2.1⟩
        exact (h2.2 b hmem) (List.mem_cons_self b seen)
      · intro a ha
        rcases List.mem_cons.mp ha with rfl | ha
        · exact hb
        · intro hseen
          exact (h2.2 a ha) (List.mem_cons_of_mem b hseen)

theorem firstSeen_nodup {α : Type} [DecidableEq α] (l : List α) :
    (firstSeen l).Nodup :=
  (firstSeenAux_spec l []).1

theorem mem_firstSeenAux {α : Type} [DecidableEq α] (l : List α) :
    ∀ seen : List α, ∀ a ∈ l, a ∉ seen → a ∈ firstSeenAux seen l := by
  induction l with
  | nil => intro seen a ha; cases ha
  | cons b l ih =>
    intro seen a ha hseen
    rcases List.mem_cons.mp ha with rfl | ha
    · by_cases hb : a ∈ seen
      · exact absurd hb hseen
      · rw [firstSeenAux_cons_not_mem seen a l hb]
        exact List.mem_cons_self a _
    · by_cases hb : b ∈ seen
      · rw [firstSeenAux_cons_mem seen b l hb]
        exact ih seen a ha hseen
      · rw [firstSeenAux_cons_not_mem seen b l hb]
        by_cases hab : a = b
        · exact hab ▸ List.mem_cons_self b _
        · refine List.mem_cons_of_mem b (ih (b :: seen) a ha ?_)
          intro hmem
          rcases List.mem_cons.mp hmem with h | h
          · exact hab h
          · exact hseen h

theorem mem_firstSeen {α : Type} [DecidableEq α] (l : List α) (a : α) (ha : a ∈ l) :
    a ∈ firstSeen l :=
  mem_firstSeenAux l [] a ha (by intro h; cases h)

theorem firstSeenAux_subset {α : Type} [DecidableEq α] (l : List α) :
    ∀ seen : List α, ∀ a ∈ firstSeenAux seen l, a ∈ l := by
  induction l with
  | nil => intro seen a ha; cases ha
  | cons b l ih =>
    intro seen a ha
    by_cases hb : b ∈ seen
    · rw [firstSeenAux_cons_mem seen b l hb] at ha
      exact List.mem_cons_of_mem b (ih seen a ha)
    · rw [firstSeenAux_cons_not_mem seen b l hb] at ha
      rcases List.mem_cons.mp ha with rfl | ha
      · exact List.mem_cons_self a _
      · exact List.mem_cons_of_mem b (ih (b :: seen) a ha)

theorem firstSeen_subset {α : Type} [DecidableEq α] (l : List α) (a : α)
    (ha : a ∈ firstSeen l) : a ∈ l :=
  firstSeenAux_subset l [] a ha

theorem sum_map_add_split {α : Type} (l : List α) (f g : α → Int) :
    (l.map (fun a => f a + g a)).sum = (l.map f).sum + (l.map g).sum := by
  induction l with
  | nil => simp
  | cons b l ih => simp [ih]; ring

theorem sum_if_single {κ : Type} [DecidableEq κ] (a : κ) (c : Int) :
    ∀ keys : List κ, keys.Nodup → a ∈ keys →
      (keys.map (fun k => if a = k then c else 0)).sum = c := by
  intro keys
  induction keys with
  | nil => intro _ ha; cases ha
  | cons k ks ih =>
    intro hnd ha
    rcases List.mem_cons.mp ha with rfl | ha
    · have hnotin : a ∉ ks := (List.nodup_cons.mp hnd).1
      have hz : (ks.map (fun k2 => if a = k2 then c else 0)).sum = 0 := by
        refine List.sum_eq_zero ?_
        intro x hx
        rcases List.mem_map.mp hx with ⟨k2, hk2, rfl⟩
        have : a ≠ k2 := fun h => hnotin (h ▸ hk2)
        simp [this]
      simp [hz]
    · have hne : a ≠ k := by
        intro h
        exact (List.nodup_cons.mp hnd).1 (h ▸ ha)
      simp only [List.map_cons, List.sum_cons, if_neg hne]
      rw [ih (List.nodup_cons.mp hnd).2 ha]
      ring

theorem sum_fiberwise {α κ : Type} [DecidableEq κ] (f : α → κ) (g : α → Int) :
    ∀ (rows : List α) (keys : List κ), keys.Nodup → (∀ r ∈ rows, f r ∈ keys) →
      (keys.map (fun k => ((rows.filter (fun r => f r = k)).map g).sum)).sum =
        (rows.map g).sum := by
  intro rows
  induction rows with
  | nil =>
    intro keys _ _
    simp only [List.filter_nil, List.map_nil, List.sum_nil]
    exact List.sum_eq_zero (by
      intro x hx
      rcases List.mem_map.mp hx with ⟨k, _, rfl⟩
      rfl)
  | cons r rs ih =>
    intro keys hnd hcov
    have hstep : ∀ k ∈ keys,
        (((r :: rs).filter (fun r2 => f r2 = k)).map g).sum =
          (if f r = k then g r else 0) +
            ((rs.filter (fun r2 => f r2 = k)).map g).sum := by
      intro k _
      by_cases hk : f r = k
      · simp [List.filter_cons, hk]
      · simp [List.filter_cons, hk]
    rw [List.map_congr_left hstep, sum_map_add_split,
      sum_if_single (f r) (g r) keys hnd (hcov r (List.mem_cons_self r rs)),
      ih keys hnd (fun r2 hr2 => hcov r2 (List.mem_cons_of_mem r hr2))]
    simp

theorem groupbySum_total (ks : List String) (rows : List Row) :
    ((groupbySum ks rows).map Prod.snd).sum = (rows.map countOf).sum := by
  unfold groupbySum
  rw [List.map_map]
  exact sum_fiberwise (keyOf ks) countOf rows (firstSeen (rows.map (keyOf ks)))
    (firstSeen_nodup _)
    (fun r hr => mem_firstSeen _ _ (List.mem_map_of_mem (keyOf ks) hr))

/-! ## Claim theorems -/

/-- C1: sum-aggregation is measure-preserving.  For every grouping key
list and every table, the sum of the measure over the groups of the
aggregate view equals the sum of `unique_ean_count` over all rows of the
input table; in particular this holds for the gender×fit bar table
(`gender_fit_df`) and the collection pie table (`collection_df`). -/
theorem sum_aggregation_measure_preserving (ks : List String) (t : Table) :
    ((groupbySum ks t.rows).map Prod.snd).sum = (t.rows.map countOf).sum ∧
    ((gender_fit_df t).map Prod.snd).sum = (t.rows.map countOf).sum ∧
    ((collection_df t).map Prod.snd).sum = (t.rows.map countOf).sum :=
  ⟨groupbySum_total ks t.rows, groupbySum_total _ t.rows, groupbySum_total _ t.rows⟩

/-- C2: the filter engine is sound and complete.  The engine preserves
the column set, its output is exactly the rows passing the conjunction
of the active equality predicates (a dimension is active when it is
recognized for the category, is a column of the table, and its selection
is not the `"All"` sentinel; `un_size` and `un_waist` compare after
string conversion), and membership in the output is equivalent to
membership in the input plus the predicate: no matching row is dropped
and no non-matching row is kept. -/
theorem filter_engine_sound_complete (cat : Category) (sel : Selections) (t : Table) :
    (applyFilters cat sel t).cols = t.cols ∧
    (applyFilters cat sel t).rows = t.rows.filter (filterSpecPred cat sel t.cols) ∧
    (∀ r, r ∈ (applyFilters cat sel t).rows ↔
      r ∈ t.rows ∧ filterSpecPred cat sel t.cols r = true) := by
  have h := applyFilters_rows cat sel t
  refine ⟨h.1, h.2, ?_⟩
  intro r
  rw [h.2]
  exact List.mem_filter

/-- C4: low-stock selection is threshold-exact.  For a threshold in the
slider range 1–30, every row of the low-stock subset has count at most
the threshold, every input row outside the subset has count above the
threshold, and an empty subset yields the informational empty signal of
the tab instead of the chart section. -/
theorem low_stock_threshold_exact (T : Int) (t : Table)
    (h1 : 1 ≤ T) (h2 : T ≤ 30) :
    (∀ r ∈ lowStockRows T t.rows, countOf r ≤ T) ∧
    (∀ r ∈ t.rows, r ∉ lowStockRows T t.rows → T < countOf r) ∧
    (lowStockRows T t.rows = [] → lowStockTab T t = LowStockRender.emptyInfo) ∧
    (lowStockRows T t.rows ≠ [] →
      lowStockTab T t = LowStockRender.charts (lowStockRows T t.rows)) := by
  refine ⟨?_, ?_, ?_, ?_⟩
  · intro r hr
    have := List.mem_filter.mp hr
    exact of_decide_eq_true this.2
  · intro r hr hnot
    by_contra hle
    push_neg at hle
    exact hnot (List.mem_filter.mpr ⟨hr, decide_eq_true hle⟩)
  · intro hempty
    unfold lowStockTab
    simp [hempty]
  · intro hne
    unfold lowStockTab
    simp only [List.isEmpty_iff]
    rw [if_neg hne]

/-- Witness for C4 at threshold 10 on the sample jeans table: counts 5
and 15 split at the threshold and the subset is the single
below-threshold row. -/
theorem low_stock_threshold_exact_witness :
    (∀ r ∈ lowStockRows 10 sampleJeans.rows, countOf r ≤ 10) ∧
    (∀ r ∈ sampleJeans.rows, r ∉ lowStockRows 10 sampleJeans.rows → 10 < countOf r) ∧
    (lowStockRows 10 sampleJeans.rows = [] →
      lowStockTab 10 sampleJeans = LowStockRender.emptyInfo) ∧
    (lowStockRows 10 sampleJeans.rows ≠ [] →
      lowStockTab 10 sampleJeans = LowStockRender.charts (lowStockRows 10 sampleJeans.rows)) :=
  low_stock_threshold_exact 10 sampleJeans (by norm_num) (by norm_num)

/-- C5: the primary-chart selection policy is first-match per category.
Jeans group by (gender, fit) summing the measure when both columns are
present and fall back to fit alone; Jackets group by color when present
(sorted by descending count as in the source) and fall back to fit;
Kimono & Gilet always group by fit. -/
theorem primary_chart_first_match (t : Table) :
    ("gender" ∈ t.cols ∧ "fit" ∈ t.cols →
      primaryChart Category.jeans t = PrimaryChart.byGenderFit (gender_fit_df t)) ∧
    (¬("gender" ∈ t.cols ∧ "fit" ∈ t.cols) →
      primaryChart Category.jeans t = PrimaryChart.byFit (groupbySum ["fit"] t.rows)) ∧
    ("color" ∈ t.cols →
      primaryChart Category.jackets t =
        PrimaryChart.byColor (sortByCountDesc (groupbySum ["color"] t.rows))) ∧
    ("color" ∉ t.cols →
      primaryChart Category.jackets t = PrimaryChart.byFit (groupbySum ["fit"] t.rows)) ∧
    primaryChart Category.kimonoGilet t = PrimaryChart.byFit (groupbySum ["fit"] t.rows) := by
  refine ⟨?_, ?_, ?_, ?_, rfl⟩
  · intro h
    show (if "gender" ∈ t.cols ∧ "fit" ∈ t.cols then
        PrimaryChart.byGenderFit (gender_fit_df t)
      else PrimaryChart.byFit (groupbySum ["fit"] t.rows)) = _
    rw [if_pos h]
  · intro h
    show (if "gender" ∈ t.cols ∧ "fit" ∈ t.cols then
        PrimaryChart.byGenderFit (gender_fit_df t)
      else PrimaryChart.byFit (groupbySum ["fit"] t.rows)) = _
    rw [if_neg h]
  · intro h
    show (if "color" ∈ t.cols then
        PrimaryChart.byColor (sortByCountDesc (groupbySum ["color"] t.rows))
      else PrimaryChart.byFit (groupbySum ["fit"] t.rows)) = _
    rw [if_pos h]
  · intro h
    show (if "color" ∈ t.cols then
        PrimaryChart.byColor (sortByCountDesc (groupbySum ["color"] t.rows))
      else PrimaryChart.byFit (groupbySum ["fit"] t.rows)) = _
    rw [if_neg h]

/-- Witness for C5 on the sample jeans table, which carries both gender
and fit: the primary chart is the gender×fit aggregate. -/
theorem primary_chart_first_match_witness :
    primaryChart Category.jeans sampleJeans = PrimaryChart.byGenderFit (gender_fit_df sampleJeans) :=
  (primary_chart_first_match sampleJeans).1 (by decide)

/-- C6: every fetch/HTTP/parse failure and every well-formed response
with a non-success status makes the fetcher return an empty table
together with a user-visible error message instead of raising past its
boundary, and the session then halts before the filter/aggregation
pipeline (the outcome is `halted`, never `rendered`). -/
theorem fetch_failure_returns_empty_and_halts (msg status : String) (data : List Row) :
    fetch_inventory_data (FetchInput.failure msg) =
      (emptyTable, some ("Error fetching data: " ++ msg)) ∧
    session (FetchInput.failure msg) = SessionOutcome.halted ∧
    (status ≠ "success" →
      fetch_inventory_data (FetchInput.response status data) =
        (emptyTable, some ("API returned error status: " ++ status)) ∧
      session (FetchInput.response status data) = SessionOutcome.halted) := by
  refine ⟨rfl, rfl, ?_⟩
  intro h
  have hfetch : fetch_inventory_data (FetchInput.response status data) =
      (emptyTable, some ("API returned error status: " ++ status)) := by
    show (if status = "success" then (mkTable data, none)
      else (emptyTable, some ("API returned error status: " ++ status))) = _
    rw [if_neg h]
  refine ⟨hfetch, ?_⟩
  unfold session
  rw [hfetch]
  rfl

/-- Witness for C6 at the status string of Scenario D: the response
status `"error"` yields the empty table, the error signal, and a halted
session. -/
theorem fetch_failure_returns_empty_and_halts_witness :
    fetch_inventory_data (FetchInput.response "error" []) =
      (emptyTable, some ("API returned error status: " ++ "error")) ∧
    session (FetchInput.response "error" []) = SessionOutcome.halted :=
  (fetch_failure_returns_empty_and_halts "boom" "error" []).2.2 (by decide)

/-- Counterexample for C7 as stated: a Jackets table with a fit column
but no color column.  The heatmap is skipped (the branch yields no
chart), but contrary to the claim no signal is emitted either — the
`if`/`elif` chain of lines 401–469 has no `else`, so the section
produces no user-visible element at all. -/
theorem heatmap_skip_unsignaled_counterexample :
    heatmap_df Category.jackets jacketsFitOnly = none ∧
    heatmapEvents Category.jackets jacketsFitOnly = ([] : List UIEvent) := by
  constructor
  · decide
  · decide

/-- C7 (amended): the heatmap is produced exactly when the
category-specific dimension pair is present (Jeans: gender and
collection crossed against fit; Jackets: color against fit;
Kimono & Gilet: un_size against fit); when any required dimension is
absent, heatmap generation is skipped silently — no message is
emitted — rather than raising an error. -/
theorem heatmap_requires_exact_pair (t : Table) :
    ((heatmap_df Category.jeans t).isSome ↔
      "gender" ∈ t.cols ∧ "collection" ∈ t.cols ∧ "fit" ∈ t.cols) ∧
    ((heatmap_df Category.jackets t).isSome ↔ "color" ∈ t.cols ∧ "fit" ∈ t.cols) ∧
    ((heatmap_df Category.kimonoGilet t).isSome ↔ "un_size" ∈ t.cols ∧ "fit" ∈ t.cols) ∧
    (∀ cat, heatmap_df cat t = none → heatmapEvents cat t = ([] : List UIEvent)) := by
  refine ⟨?_, ?_, ?_, ?_⟩
  · by_cases h : "gender" ∈ t.cols ∧ "collection" ∈ t.cols ∧ "fit" ∈ t.cols
    · simp [heatmap_df, h]
    · simp [heatmap_df, h]
  · by_cases h : "color" ∈ t.cols ∧ "fit" ∈ t.cols
    · simp [heatmap_df, h]
    · simp [heatmap_df, h]
  · by_cases h : "un_size" ∈ t.cols ∧ "fit" ∈ t.cols
    · simp [heatmap_df, h]
    · simp [heatmap_df, h]
  · intro cat hnone
    cases cat with
    | jeans =>
      by_cases h : "gender" ∈ t.cols ∧ "collection" ∈ t.cols ∧ "fit" ∈ t.cols
      · simp [heatmap_df, h] at hnone
      · simp [heatmapEvents, h]
    | jackets =>
      by_cases h : "color" ∈ t.cols ∧ "fit" ∈ t.cols
      · simp [heatmap_df, h] at hnone
      · simp [heatmapEvents, h]
    | kimonoGilet =>
      by_cases h : "un_size" ∈ t.cols ∧ "fit" ∈ t.cols
      · simp [heatmap_df, h] at hnone
      · simp [heatmapEvents, h]

/-- Witness for C7 (amended) on the sample jeans table, where the full
jeans pair gender, collection, fit is present, and on the colorless
jackets table, where the skip emits nothing. -/
theorem heatmap_requires_exact_pair_witness :
    (heatmap_df Category.jeans sampleJeans).isSome ∧
    heatmapEvents Category.jackets jacketsFitOnly = ([] : List UIEvent) :=
  ⟨((heatmap_requires_exact_pair sampleJeans).1).mpr (by decide),
   (heatmap_requires_exact_pair jacketsFitOnly).2.2.2 Category.jackets (by decide)⟩

/-! ## Helper lemma: the enumeration map of a duplicate-free list -/

theorem idxOfD_map_range {α : Type} [DecidableEq α] :
    ∀ l : List α, l.Nodup → l.map (fun a => idxOfD a l) = List.range l.length := by
  intro l
  induction l with
  | nil => intro _; rfl
  | cons b t ih =>
    intro h
    have hb : b ∉ t := (List.nodup_cons.mp h).1
    have ht : t.Nodup := (List.nodup_cons.mp h).2
    have hhead : idxOfD b (b :: t) = 0 := by simp [idxOfD]
    have htail : t.map (fun a => idxOfD a (b :: t)) = t.map (fun a => idxOfD a t + 1) := by
      refine List.map_congr_left ?_
      intro a ha
      have hab : b ≠ a := fun h2 => hb (h2 ▸ ha)
      simp [idxOfD, hab]
    have hsucc : t.map (fun a => idxOfD a t + 1) =
        List.map Nat.succ (t.map (fun a => idxOfD a t)) := by
      rw [List.map_map]
      rfl
    calc (b :: t).map (fun a => idxOfD a (b :: t))
        = idxOfD b (b :: t) :: t.map (fun a => idxOfD a (b :: t)) := rfl
      _ = 0 :: List.map Nat.succ (t.map (fun a => idxOfD a t)) := by
          rw [hhead, htail, hsucc]
      _ = 0 :: List.map Nat.succ (List.range t.length) := by rw [ih ht]
      _ = List.range (t.length + 1) := (List.range_succ_eq_map t.length).symm

/-- C8: in the parallel-coordinates projection built from the low-stock
subset, the distinct values of every categorical dimension are
duplicate-free and their `val_map` images enumerate `0..k-1` in
first-seen row order (hence the mapping is injective), the encoded axis
carries each row through that mapping, and the measure axis range is
exactly `[0, T]` for the user threshold `T`. -/
theorem parcoords_encoding (c : String) (T : Int) (t : Table) :
    (uniqueVals c (lowStockRows T t.rows)).Nodup ∧
    ((uniqueVals c (lowStockRows T t.rows)).map
        (fun v => valMapIdx c (lowStockRows T t.rows) v) =
      List.range (uniqueVals c (lowStockRows T t.rows)).length) ∧
    (catDimension c (lowStockRows T t.rows)).axisValues =
      (lowStockRows T t.rows).map
        (fun r => Int.ofNat (valMapIdx c (lowStockRows T t.rows) (getD r c))) ∧
    (measureDimension T (lowStockRows T t.rows)).rangeLo = 0 ∧
    (measureDimension T (lowStockRows T t.rows)).rangeHi = T :=
  ⟨firstSeen_nodup _,
   idxOfD_map_range (uniqueVals c (lowStockRows T t.rows)) (firstSeen_nodup _),
   rfl, rfl, rfl⟩

/-! ## Helper lemmas: the strict numeric coercion -/

theorem setCellList_cons_hit (c : String) (v : Value) (p : String × Value)
    (ps : List (String × Value)) (hp : p.1 = c) :
    setCellList c v (p :: ps) = (p.1, v) :: setCellList c v ps := by
  simp only [setCellList]
  rw [if_pos hp]

theorem setCellList_cons_miss (c : String) (v : Value) (p : String × Value)
    (ps : List (String × Value)) (hp : ¬p.1 = c) :
    setCellList c v (p :: ps) = p :: setCellList c v ps := by
  simp only [setCellList]
  rw [if_neg hp]

theorem lookupCell_cons_hit (c : String) (p : String × Value)
    (ps : List (String × Value)) (h : p.1 = c) :
    lookupCell c (p :: ps) = some p.2 := by
  simp only [lookupCell]
  rw [if_pos h]

theorem lookupCell_cons_miss (c : String) (p : String × Value)
    (ps : List (String × Value)) (h : ¬p.1 = c) :
    lookupCell c (p :: ps) = lookupCell c ps := by
  simp only [lookupCell]
  rw [if_neg h]

theorem lookupCell_setCellList_ne (c c2 : String) (v : Value) (hne : c2 ≠ c) :
    ∀ cells : List (String × Value),
      lookupCell c2 (setCellList c v cells) = lookupCell c2 cells := by
  intro cells
  induction cells with
  | nil => rfl
  | cons p ps ih =>
    by_cases hp : p.1 = c
    · have hp2 : ¬p.1 = c2 := by
        rw [hp]
        exact fun h => hne h.symm
      rw [setCellList_cons_hit c v p ps hp, lookupCell_cons_miss c2 (p.1, v) _ hp2,
        lookupCell_cons_miss c2 p ps hp2, ih]
    · by_cases hq : p.1 = c2
      · rw [setCellList_cons_miss c v p ps hp, lookupCell_cons_hit c2 p _ hq,
          lookupCell_cons_hit c2 p ps hq]
      · rw [setCellList_cons_miss c v p ps hp, lookupCell_cons_miss c2 p _ hq,
          lookupCell_cons_miss c2 p ps hq, ih]

theorem lookupCell_setCellList_eq (c : String) (v : Value) :
    ∀ cells : List (String × Value), ∀ w, lookupCell c cells = some w →
      lookupCell c (setCellList c v cells) = some v := by
  intro cells
  induction cells with
  | nil => intro w h; exact Option.noConfusion h
  | cons p ps ih =>
    intro w h
    by_cases hp : p.1 = c
    · rw [setCellList_cons_hit c v p ps hp, lookupCell_cons_hit c (p.1, v) _ hp]
    · rw [lookupCell_cons_miss c p ps hp] at h
      rw [setCellList_cons_miss c v p ps hp, lookupCell_cons_miss c p _ hp]
      exact ih w h

theorem coerceRow_eq_none (r : Row) (hg : getCol r "unique_ean_count" = none) :
    coerceRow r = none := by
  unfold coerceRow
  rw [hg]

theorem coerceRow_eq_bad (r : Row) (v : Value)
    (hg : getCol r "unique_ean_count" = some v) (hn : toNumeric v = none) :
    coerceRow r = none := by
  unfold coerceRow
  rw [hg]
  dsimp only
  rw [hn]

theorem coerceRow_eq_good (r : Row) (v : Value) (n : Int)
    (hg : getCol r "unique_ean_count" = some v) (hn : toNumeric v = some n) :
    coerceRow r = some ⟨setCellList "unique_ean_count" (Value.num n) r.cells⟩ := by
  unfold coerceRow
  rw [hg]
  dsimp only
  rw [hn]

theorem coerceRow_some_spec (r r2 : Row) (h : coerceRow r = some r2) :
    (∀ c, c ≠ "unique_ean_count" → getCol r2 c = getCol r c) ∧
    ∃ n, getCol r2 "unique_ean_count" = some (Value.num n) := by
  cases hg : getCol r "unique_ean_count" with
  | none =>
    rw [coerceRow_eq_none r hg] at h
    exact Option.noConfusion h
  | some v =>
    cases hn : toNumeric v with
    | none =>
      rw [coerceRow_eq_bad r v hg hn] at h
      exact Option.noConfusion h
    | some n =>
      rw [coerceRow_eq_good r v n hg hn] at h
      injection h with h2
      subst h2
      constructor
      · intro c hc
        show lookupCell c (setCellList "unique_ean_count" (Value.num n) r.cells) = getCol r c
        exact lookupCell_setCellList_ne "unique_ean_count" c (Value.num n) hc r.cells
      · refine ⟨n, ?_⟩
        show lookupCell "unique_ean_count"
          (setCellList "unique_ean_count" (Value.num n) r.cells) = some (Value.num n)
        exact lookupCell_setCellList_eq "unique_ean_count" (Value.num n) r.cells v hg

theorem coerceRow_none_iff (r : Row) : coerceRow r = none ↔ rowParses r = false := by
  cases hg : getCol r "unique_ean_count" with
  | none =>
    rw [coerceRow_eq_none r hg]
    unfold rowParses
    rw [hg]
    simp
  | some v =>
    cases hn : toNumeric v with
    | none =>
      rw [coerceRow_eq_bad r v hg hn]
      unfold rowParses
      rw [hg]
      dsimp only
      rw [hn]
      simp
    | some n =>
      rw [coerceRow_eq_good r v n hg hn]
      unfold rowParses
      rw [hg]
      dsimp only
      rw [hn]
      simp

theorem coerceRows_cons_fail (r : Row) (rs : List Row) (hr : coerceRow r = none) :
    coerceRows (r :: rs) = none := by
  unfold coerceRows
  rw [hr]

theorem coerceRows_cons_tail_fail (r : Row) (rs : List Row) (r2 : Row)
    (hr : coerceRow r = some r2) (hrs : coerceRows rs = none) :
    coerceRows (r :: rs) = none := by
  unfold coerceRows
  rw [hr]
  dsimp only
  rw [hrs]

theorem coerceRows_cons_ok (r : Row) (rs : List Row) (r2 : Row) (rs2 : List Row)
    (hr : coerceRow r = some r2) (hrs : coerceRows rs = some rs2) :
    coerceRows (r :: rs) = some (r2 :: rs2) := by
  unfold coerceRows
  rw [hr]
  dsimp only
  rw [hrs]

theorem coerceRows_none_iff :
    ∀ rows : List Row, coerceRows rows = none ↔ ∃ r ∈ rows, rowParses r = false := by
  intro rows
  induction rows with
  | nil =>
    constructor
    · intro h
      exact Option.noConfusion h
    · rintro ⟨x, hx, _⟩
      exact absurd hx (List.not_mem_nil x)
  | cons r rs ih =>
    cases hr : coerceRow r with
    | none =>
      rw [coerceRows_cons_fail r rs hr]
      exact ⟨fun _ => ⟨r, List.mem_cons_self r rs, (coerceRow_none_iff r).mp hr⟩,
        fun _ => rfl⟩
    | some r2 =>
      cases hrs : coerceRows rs with
      | none =>
        rw [coerceRows_cons_tail_fail r rs r2 hr hrs]
        refine ⟨fun _ => ?_, fun _ => rfl⟩
        obtain ⟨x, hx, hf⟩ := ih.mp hrs
        exact ⟨x, List.mem_cons_of_mem r hx, hf⟩
      | some rs2 =>
        rw [coerceRows_cons_ok r rs r2 rs2 hr hrs]
        constructor
        · intro h
          exact Option.noConfusion h
        · rintro ⟨x, hx, hfail⟩
          exfalso
          rcases List.mem_cons.mp hx with rfl | hx2
          · rw [(coerceRow_none_iff x).mpr hfail] at hr
            exact Option.noConfusion hr
          · rw [ih.mpr ⟨x, hx2, hfail⟩] at hrs
            exact Option.noConfusion hrs

theorem coerceRows_some_forall2 :
    ∀ rows rs : List Row, coerceRows rows = some rs →
      List.Forall₂ (fun r r2 => coerceRow r = some r2) rows rs := by
  intro rows
  induction rows with
  | nil =>
    intro rs h
    injection h with h2
    subst h2
    exact List.Forall₂.nil
  | cons r rest ih =>
    intro rs h
    cases hr : coerceRow r with
    | none =>
      rw [coerceRows_cons_fail r rest hr] at h
      exact Option.noConfusion h
    | some r2 =>
      cases hrest : coerceRows rest with
      | none =>
        rw [coerceRows_cons_tail_fail r rest r2 hr hrest] at h
        exact Option.noConfusion h
      | some rs2 =>
        rw [coerceRows_cons_ok r rest r2 rs2 hr hrest] at h
        injection h with h2
        subst h2
        exact List.Forall₂.cons hr (ih rs2 hrest)

/-- C9: the numeric coercion of `unique_ean_count` (line 84) is strict
and lies outside the error boundary of the fetcher.  The coercion fails
exactly when the count of some row does not parse; when all counts parse it
succeeds, leaving all other columns of every row unchanged and making
the count numeric; and for a successfully fetched non-empty table a
parse failure surfaces as an uncaught exception (`raised`) — it is not
converted into the empty-table "no data" halt — so downstream
processing is reachable only when all counts parse. -/
theorem to_numeric_strict_boundary (t : Table) (data : List Row) :
    (coerceRows t.rows = none ↔ ∃ r ∈ t.rows, rowParses r = false) ∧
    ((∀ r ∈ t.rows, rowParses r = true) → ∃ rs, coerceRows t.rows = some rs) ∧
    (∀ rs, coerceRows t.rows = some rs →
      List.Forall₂ (fun r r2 =>
        (∀ c, c ≠ "unique_ean_count" → getCol r2 c = getCol r c) ∧
        ∃ n, getCol r2 "unique_ean_count" = some (Value.num n)) t.rows rs) ∧
    (session (FetchInput.response "success" data) = SessionOutcome.raised ↔
      data ≠ [] ∧ ∃ r ∈ data, rowParses r = false) := by
  refine ⟨coerceRows_none_iff t.rows, ?_, ?_, ?_⟩
  · intro hall
    cases hsome : coerceRows t.rows with
    | none =>
      rcases (coerceRows_none_iff t.rows).mp hsome with ⟨r, hr, hfail⟩
      rw [hall r hr] at hfail
      exact Bool.noConfusion hfail
    | some rs => exact ⟨rs, rfl⟩
  · intro rs h
    exact List.Forall₂.imp (fun r r2 hr => coerceRow_some_spec r r2 hr)
      (coerceRows_some_forall2 t.rows rs h)
  · have hfetch : fetch_inventory_data (FetchInput.response "success" data) =
        (mkTable data, none) := by
      show (if "success" = "success" then (mkTable data, none)
        else (emptyTable, some ("API returned error status: " ++ "success"))) = _
      rw [if_pos rfl]
    unfold session
    rw [hfetch]
    cases data with
    | nil =>
      constructor
      · intro h
        exact SessionOutcome.noConfusion h
      · rintro ⟨hne, _⟩
        exact absurd rfl hne
    | cons a l =>
      unfold coerceCounts mkTable
      dsimp only
      cases hc : coerceRows (a :: l) with
      | none =>
        exact ⟨fun _ => ⟨by simp, (coerceRows_none_iff (a :: l)).mp hc⟩, fun _ => rfl⟩
      | some rs =>
        constructor
        · intro h
          exact SessionOutcome.noConfusion h
        · rintro ⟨-, hfail⟩
          exfalso
          rw [(coerceRows_none_iff (a :: l)).mpr hfail] at hc
          exact Option.noConfusion hc

/-- Witness for C9 on the sample jeans table, whose counts are already
numeric: the coercion succeeds and relates the rows to themselves,
preserving every non-count column. -/
theorem to_numeric_strict_boundary_witness :
    (∃ rs, coerceRows sampleJeans.rows = some rs) ∧
    List.Forall₂ (fun r r2 =>
      (∀ c, c ≠ "unique_ean_count" → getCol r2 c = getCol r c) ∧
      ∃ n, getCol r2 "unique_ean_count" = some (Value.num n))
      sampleJeans.rows sampleJeans.rows :=
  ⟨(to_numeric_strict_boundary sampleJeans []).2.1 (by decide),
   (to_numeric_strict_boundary sampleJeans []).2.2.1 sampleJeans.rows (by decide)⟩

/-- C10: the hierarchical path shared by the treemap and the sunburst is
built in the fixed order gender, collection, fit, color, size segment,
taking each segment exactly when its column is present in the low-stock
subset; the size segment is `un_size` when present (so `un_waist` is
omitted whenever `un_size` exists) and `un_waist` otherwise; and the
sunburst grouping uses the very same path list as the treemap, producing
the same grouped sums. -/
theorem treemap_sunburst_shared_path (cols : List String) (t : Table) :
    treemap_path cols = treemapPathSpec cols ∧
    ("un_size" ∈ cols → "un_waist" ∉ treemap_path cols) ∧
    sunburst_data t = treemap_data t := by
  have hpath : treemap_path cols = treemapPathSpec cols := by
    unfold treemap_path treemapPathSpec
    by_cases h1 : "gender" ∈ cols <;> by_cases h2 : "collection" ∈ cols <;>
      by_cases h3 : "fit" ∈ cols <;> by_cases h4 : "color" ∈ cols <;>
      simp [h1, h2, h3, h4]
  refine ⟨hpath, ?_, rfl⟩
  intro hsz hmem
  rw [hpath] at hmem
  unfold treemapPathSpec at hmem
  rw [if_pos hsz] at hmem
  rcases List.mem_append.mp hmem with h | h
  · have h2 := (List.mem_filter.mp h).1
    simp at h2
  · simp at h

/-- Witness for C10 on a column set carrying both size and waist: the
path prefers `un_size` and omits `un_waist`. -/
theorem treemap_sunburst_shared_path_witness :
    "un_waist" ∉ treemap_path ["gender", "fit", "un_size", "un_waist", "unique_ean_count"] :=
  (treemap_sunburst_shared_path
    ["gender", "fit", "un_size", "un_waist", "unique_ean_count"] sampleJeans).2.1 (by decide)
